import Mathlib

/-!
Verification development for the `gopdf` (wkhtmltopdf wrapper) library:
a shallow embedding of the option model, argument serializer, page
abstraction, duplicate-flag check, run orchestration, markdown skip
logic and the JSON interchange codec, with theorems about the claims
of the specification.

Bytes are modelled as `Char`s inside `String`s (the repository only
manipulates ASCII content in the relevant code paths); Go `nil` maps,
readers and slices are modelled with `Option`.
-/

namespace GoPdf

/-! ### Option primitives

The option-primitive file of the repository is not part of the given
sources; the primitives below are modelled from the spec (§4.1) and
pinned by `src/json.go` (field shapes) and the unit tests in
`src/unnamed/part_004` (`TestStringOption`, `TestBoolOption`,
`TestUIntOption`, `TestSliceOption`, `TestMapOption`). -/

/-- Modelled from the spec: a single-valued string option; unset is the
empty value, `Parse` yields `[--flagName, value]` when set. -/
structure StringOption where
  option : String
  value : String
deriving DecidableEq

def StringOption.parse (o : StringOption) : List String :=
  if o.value ≠ "" then ["--" ++ o.option, o.value] else []

def StringOption.set (o : StringOption) (v : String) : StringOption :=
  { o with value := v }

/-- Modelled from the spec: a pure boolean flag; `Parse` yields
`[--flagName]` when set to true, nothing otherwise. -/
structure BoolOption where
  option : String
  value : Bool
deriving DecidableEq

def BoolOption.parse (o : BoolOption) : List String :=
  if o.value then ["--" ++ o.option] else []

def BoolOption.set (o : BoolOption) (v : Bool) : BoolOption :=
  { o with value := v }

/-- Modelled from the spec: an unsigned-integer option carrying an
explicit presence bit. -/
structure UintOption where
  option : String
  isSet : Bool
  value : Nat
deriving DecidableEq

def UintOption.parse (o : UintOption) : List String :=
  if o.isSet then ["--" ++ o.option, toString o.value] else []

def UintOption.set (o : UintOption) (v : Nat) : UintOption :=
  { o with isSet := true, value := v }

/-- Modelled from the spec: a repeatable key/value option. The Go value
is a possibly-nil `map[string]string`; it is modelled as an optional
insertion-ordered association list (`Set` overwrites an existing key in
place), and `Parse` emits one `[--flagName, key, value]` triple per
entry, in that fixed order (§4.1 leaves the enumeration order of the
map unspecified; a fixed order is chosen so that the serializer is a
function). -/
structure MapOption where
  option : String
  value : Option (List (String × String))
deriving DecidableEq

def setPair : List (String × String) → String → String → List (String × String)
  | [], k, v => [(k, v)]
  | (k₀, v₀) :: rest, k, v =>
    if k₀ = k then (k₀, v) :: rest else (k₀, v₀) :: setPair rest k v

def MapOption.set (o : MapOption) (k v : String) : MapOption :=
  match o.value with
  | none => { o with value := some [(k, v)] }
  | some l => { o with value := some (setPair l k v) }

def MapOption.parse (o : MapOption) : List String :=
  match o.value with
  | none => []
  | some l => l.flatMap fun kv => ["--" ++ o.option, kv.1, kv.2]

/-- Modelled from the spec: a repeatable list option; `Set` accumulates
and `Parse` emits one `[--flagName, item]` pair per accumulated item. -/
structure SliceOption where
  option : String
  value : List String
deriving DecidableEq

def SliceOption.set (o : SliceOption) (v : String) : SliceOption :=
  { o with value := o.value ++ [v] }

def SliceOption.parse (o : SliceOption) : List String :=
  o.value.flatMap fun v => ["--" ++ o.option, v]

/-! ### Option groups

The group declarations are likewise not under `src/`; they are modelled
from the spec (§2, §4.2: fixed declaration-order concatenation of the
members' `Parse` fragments) with the member set restricted to the
options exercised by the given sources, and the declaration order
pinned by the tests in `src/unnamed/part_004` (`expectedArgString`,
`TestUnitOptions`) and the spec's §8 concrete scenario. -/

/-- Modelled from the spec: the document-global option group. -/
structure GlobalOptions where
  Dpi : UintOption
  Grayscale : BoolOption
  MarginBottom : UintOption
  MarginBottomUnit : StringOption
  MarginLeft : UintOption
  MarginLeftUnit : StringOption
  MarginRight : UintOption
  MarginRightUnit : StringOption
  PageSize : StringOption
  MarginTop : UintOption
  MarginTopUnit : StringOption
  NoCollate : BoolOption
  Orientation : StringOption
  PageHeightUnit : StringOption
  PageWidthUnit : StringOption
  Title : StringOption
  Version : BoolOption
deriving DecidableEq

def GlobalOptions.Args (g : GlobalOptions) : List String :=
  g.Dpi.parse ++ g.Grayscale.parse ++ g.MarginBottom.parse ++
  g.MarginBottomUnit.parse ++ g.MarginLeft.parse ++ g.MarginLeftUnit.parse ++
  g.MarginRight.parse ++ g.MarginRightUnit.parse ++ g.PageSize.parse ++
  g.MarginTop.parse ++ g.MarginTopUnit.parse ++ g.NoCollate.parse ++
  g.Orientation.parse ++ g.PageHeightUnit.parse ++ g.PageWidthUnit.parse ++
  g.Title.parse ++ g.Version.parse

/-- Modelled from the spec: freshly constructed global options, all unset. -/
def newGlobalOptions : GlobalOptions where
  Dpi := ⟨"dpi", false, 0⟩
  Grayscale := ⟨"grayscale", false⟩
  MarginBottom := ⟨"margin-bottom", false, 0⟩
  MarginBottomUnit := ⟨"margin-bottom", ""⟩
  MarginLeft := ⟨"margin-left", false, 0⟩
  MarginLeftUnit := ⟨"margin-left", ""⟩
  MarginRight := ⟨"margin-right", false, 0⟩
  MarginRightUnit := ⟨"margin-right", ""⟩
  PageSize := ⟨"page-size", ""⟩
  MarginTop := ⟨"margin-top", false, 0⟩
  MarginTopUnit := ⟨"margin-top", ""⟩
  NoCollate := ⟨"no-collate", false⟩
  Orientation := ⟨"orientation", ""⟩
  PageHeightUnit := ⟨"page-height", ""⟩
  PageWidthUnit := ⟨"page-width", ""⟩
  Title := ⟨"title", ""⟩
  Version := ⟨"version", false⟩

/-- Modelled from the spec: the letter-size page constant. -/
def PageSizeLetter : String := "Letter"

/-- Modelled from the spec: the A4 page-size constant. -/
def PageSizeA4 : String := "A4"

/-- Modelled from the spec: the outline option group. -/
structure OutlineOptions where
  DumpOutline : StringOption
  NoOutline : BoolOption
  Outline : BoolOption
  OutlineDepth : UintOption
deriving DecidableEq

def OutlineOptions.Args (g : OutlineOptions) : List String :=
  g.DumpOutline.parse ++ g.NoOutline.parse ++ g.Outline.parse ++
  g.OutlineDepth.parse

/-- Modelled from the spec: freshly constructed outline options. -/
def newOutlineOptions : OutlineOptions where
  DumpOutline := ⟨"dump-outline", ""⟩
  NoOutline := ⟨"no-outline", false⟩
  Outline := ⟨"outline", false⟩
  OutlineDepth := ⟨"outline-depth", false, 0⟩

/-- Modelled from the spec: the per-page option sub-group
(`pageOptions` in the source). -/
structure PageSubOptions where
  Allow : SliceOption
  CustomHeader : MapOption
  DisableSmartShrinking : BoolOption
  EnableLocalFileAccess : BoolOption
  UserStyleSheet : StringOption
  ViewportSize : StringOption
  Zoom : StringOption
deriving DecidableEq

def PageSubOptions.Args (g : PageSubOptions) : List String :=
  g.Allow.parse ++ g.CustomHeader.parse ++ g.DisableSmartShrinking.parse ++
  g.EnableLocalFileAccess.parse ++ g.UserStyleSheet.parse ++
  g.ViewportSize.parse ++ g.Zoom.parse

/-- Modelled from the spec: freshly constructed per-page options. -/
def newPageSubOptions : PageSubOptions where
  Allow := ⟨"allow", []⟩
  CustomHeader := ⟨"custom-header", none⟩
  DisableSmartShrinking := ⟨"disable-smart-shrinking", false⟩
  EnableLocalFileAccess := ⟨"enable-local-file-access", false⟩
  UserStyleSheet := ⟨"user-style-sheet", ""⟩
  ViewportSize := ⟨"viewport-size", ""⟩
  Zoom := ⟨"zoom", ""⟩

/-- Modelled from the spec: the header/footer option group
(`headerAndFooterOptions` in the source). -/
structure HFOptions where
  FooterCenter : StringOption
  FooterHTML : StringOption
  HeaderHTML : StringOption
  Replace : MapOption
deriving DecidableEq

def HFOptions.Args (g : HFOptions) : List String :=
  g.FooterCenter.parse ++ g.FooterHTML.parse ++ g.HeaderHTML.parse ++
  g.Replace.parse

/-- Modelled from the spec: freshly constructed header/footer options. -/
def newHFOptions : HFOptions where
  FooterCenter := ⟨"footer-center", ""⟩
  FooterHTML := ⟨"footer-html", ""⟩
  HeaderHTML := ⟨"header-html", ""⟩
  Replace := ⟨"replace", none⟩

/-- Modelled from the spec: table-of-contents specific options. -/
structure TocOptions where
  DisableDottedLines : BoolOption
  TocHeaderText : StringOption
  XslStyleSheet : StringOption
deriving DecidableEq

def TocOptions.Args (g : TocOptions) : List String :=
  g.DisableDottedLines.parse ++ g.TocHeaderText.parse ++ g.XslStyleSheet.parse

/-- Modelled from the spec: freshly constructed TOC options. -/
def newTocOptions : TocOptions where
  DisableDottedLines := ⟨"disable-dotted-lines", false⟩
  TocHeaderText := ⟨"toc-header-text", ""⟩
  XslStyleSheet := ⟨"xsl-style-sheet", ""⟩

/-- Per-page options: `pageOptions` plus `headerAndFooterOptions`,
mirroring `PageOptions` in `src/unnamed/part_000`. -/
structure PageOptions where
  po : PageSubOptions
  hf : HFOptions
deriving DecidableEq

/-- `PageOptions.Args` from `src/unnamed/part_000`: the page sub-group's
args followed by the header/footer args. -/
def PageOptions.Args (o : PageOptions) : List String :=
  ([] ++ o.po.Args) ++ o.hf.Args

/-- `NewPageOptions` from `src/unnamed/part_000`. -/
def NewPageOptions : PageOptions :=
  { po := newPageSubOptions, hf := newHFOptions }

/-! ### Readers

An `io.Reader` over an in-memory byte slice (`bytes.Reader`) is a data
buffer plus a read position; `readAll` (Go `io.ReadAll`) returns the
remaining bytes and leaves the reader exhausted. -/

structure ByteReader where
  data : String
  pos : Nat
deriving DecidableEq

def ByteReader.remaining (b : ByteReader) : String :=
  b.data.drop b.pos

def ByteReader.readAll (b : ByteReader) : String × ByteReader :=
  (b.remaining, { b with pos := b.data.length })

/-- A reader value handed around at run/serialization time: either an
in-memory byte reader or the `errorReader` of `src/unnamed/part_000`
that immediately yields a stored error. -/
inductive RVal where
  | bytes (br : ByteReader)
  | errReader (e : String)
deriving DecidableEq

/-! ### Markdown heading-skip logic

Translated from `MarkdownPage.Reader` in `src/unnamed/part_000`
(lines 170-258).  The `bufio.Scanner` with the default line splitter is
modelled by `scanLines`: lines are split at `'\n'`, a final trailing
newline produces no extra empty line, and a trailing `'\r'` is removed
from each line (Go `dropCR`). -/

def dropCRChars (l : List Char) : List Char :=
  if l.getLast? = some '\r' then l.dropLast else l

def scanLinesAux (acc : List Char) : List Char → List (List Char)
  | [] => [dropCRChars acc.reverse]
  | c :: rest =>
    if c = '\n' then
      dropCRChars acc.reverse :: (if rest.isEmpty then [] else scanLinesAux [] rest)
    else
      scanLinesAux (c :: acc) rest

def scanLines (s : List Char) : List (List Char) :=
  if s.isEmpty then [] else scanLinesAux [] s

def trimChars (l : List Char) : List Char :=
  ((l.dropWhile Char.isWhitespace).reverse.dropWhile Char.isWhitespace).reverse

/-- A top-level heading line: its trimmed text starts with `# `
(Go `strings.HasPrefix(trimmedLine, "# ")`). -/
def isH1L (l : List Char) : Bool :=
  "# ".data.isPrefixOf (trimChars l)

/-- A second-level heading line: its trimmed text starts with `## `. -/
def isH2L (l : List Char) : Bool :=
  "## ".data.isPrefixOf (trimChars l)

/-- A blank line: its trimmed text is empty. -/
def blankL (l : List Char) : Bool :=
  (trimChars l).isEmpty

/-- The scanning loop of `MarkdownPage.Reader` under `SkipFirstH1H2`:
walks the lines accumulating a byte offset, returns `some offset` when
a skip point was found (`skipped = true` in the source) and `none`
otherwise.  Branches exactly as in the source: first `# `-prefixed line
sets `foundH1`; after it an `## `-prefixed line ends the skip region
just after itself; any other non-blank line ends it just before
itself; blank lines (and all lines before the first `# `) only advance
the offset. -/
def mdSkipLoop : List (List Char) → Nat → Bool → Option Nat
  | [], _, _ => none
  | line :: rest, byteOffset, foundH1 =>
    let lineLen := line.length + 1
    if !foundH1 && isH1L line then
      mdSkipLoop rest (byteOffset + lineLen) true
    else if foundH1 && isH2L line then
      some (byteOffset + lineLen)
    else if foundH1 && !(blankL line) then
      some byteOffset
    else
      mdSkipLoop rest (byteOffset + lineLen) foundH1

/-- The bytes handed to the markdown-to-HTML transform: all of the
source when the skip flag is off or no skip point is found, else the
source with the computed prefix removed. (Go slices with the computed
offset; `List.drop` is total where the Go slice would be
out-of-range.) -/
def mdBytesToParse (mdAll : List Char) (skip : Bool) : List Char :=
  if skip then
    match mdSkipLoop (scanLines mdAll) 0 false with
    | some off => mdAll.drop off
    | none => mdAll
  else mdAll

/-- The fixed HTML envelope head written by `MarkdownPage.Reader`. -/
def mdEnvelopeHead : String :=
  "<!DOCTYPE html><html><head><meta charset=\"utf-8\"><title></title></head><body>"

/-- The body of `MarkdownPage.Reader` (lines 170-258 of
`src/unnamed/part_000`), on the memo fields `htmlCache`/`readErr`:
returns the reader produced by the call together with the new cache
and error fields.  `fs` models `os.ReadFile` (`none` is a read error)
and `g` the external gomarkdown transform (an out-of-scope collaborator
per spec §1). -/
def markdownReader (fs : String → Option String) (g : String → String)
    (ip : String) (skip : Bool) (cache rerr : Option String) :
    RVal × Option String × Option String :=
  match rerr with
  | some e => (.errReader e, cache, some e)
  | none =>
    match cache with
    | some c => (.bytes ⟨c, 0⟩, some c, none)
    | none =>
      match fs ip with
      | none =>
        let e := "failed to read markdown file " ++ ip
        (.errReader e, none, some e)
      | some mdAll =>
        let body := g ⟨mdBytesToParse mdAll.data skip⟩
        let full := mdEnvelopeHead ++ body ++ "</body></html>"
        (.bytes ⟨full, 0⟩, some full, none)

/-! ### Pages -/

/-- The `PageProvider` implementations of `src/unnamed/part_000`:
`Page` (file/URL locator), `PageReader` (in-memory stream, possibly a
nil reader), `MarkdownPage` (source path, skip flag, memoized HTML or
error). -/
inductive PageProvider where
  | page (input : String) (opts : PageOptions)
  | pageReader (input : Option ByteReader) (opts : PageOptions)
  | markdownPage (inputPath : String) (skipFirstH1H2 : Bool)
      (opts : PageOptions) (htmlCache : Option String) (readErr : Option String)
deriving DecidableEq

/-- `InputFile()`: the locator, a stdin sentinel for reader/markdown pages. -/
def PageProvider.inputFile : PageProvider → String
  | .page input _ => input
  | .pageReader _ _ => "-"
  | .markdownPage .. => "-"

/-- `Options()`: the page's option group. -/
def PageProvider.options : PageProvider → PageOptions
  | .page _ o => o
  | .pageReader _ o => o
  | .markdownPage _ _ o _ _ => o

def PageProvider.withOptions : PageProvider → PageOptions → PageProvider
  | .page i _, o => .page i o
  | .pageReader r _, o => .pageReader r o
  | .markdownPage ip sk _ c e, o => .markdownPage ip sk o c e

/-- `Args()` of a page: its own option group's args. -/
def PageProvider.args (p : PageProvider) : List String :=
  p.options.Args

/-- `Reader()`: `nil` for a located page, the stored reader object for a
stream page, and the memoizing computation for a markdown page. -/
def PageProvider.readerCall (fs : String → Option String) (g : String → String) :
    PageProvider → Option RVal × PageProvider
  | .page i o => (none, .page i o)
  | .pageReader inp o => (inp.map .bytes, .pageReader inp o)
  | .markdownPage ip sk o cache rerr =>
    let r := markdownReader fs g ip sk cache rerr
    (some r.1, .markdownPage ip sk o r.2.1 r.2.2)

/-- `NewPage` from `src/unnamed/part_000`. -/
def NewPage (input : String) : PageProvider :=
  .page input NewPageOptions

/-- `NewPageReader` from `src/unnamed/part_000`. -/
def NewPageReader (input : Option ByteReader) : PageProvider :=
  .pageReader input NewPageOptions

/-- `NewMarkdownPage` from `src/unnamed/part_000`. -/
def NewMarkdownPage (inputPath : String) : PageProvider :=
  .markdownPage inputPath false NewPageOptions none none

/-! ### The document model -/

/-- `cover` from `src/unnamed/part_000`: locator plus its own page
sub-options. -/
structure Cover where
  Input : String
  pageOpts : PageSubOptions
deriving DecidableEq

/-- `toc` from `src/unnamed/part_000`: inclusion flag plus layout,
TOC-specific and header/footer option groups. -/
structure Toc where
  Include : Bool
  pageOpts : PageSubOptions
  tocOpts : TocOptions
  hfOpts : HFOptions
deriving DecidableEq

/-- `PDFGenerator` from `src/unnamed/part_000`. The stderr/stdout
redirection writers are not modelled (thin OS glue per spec §1); the
internal output buffer is a `String`. -/
structure PDFGenerator where
  globalOptions : GlobalOptions
  outlineOptions : OutlineOptions
  Cover : Cover
  TOC : Toc
  OutputFile : String
  userStyleSheetPath : String
  headerHTMLPath : String
  footerHTMLPath : String
  replace : MapOption
  binPath : String
  outbuf : String
  pages : List PageProvider
deriving DecidableEq

/-- `PDFGenerator.Args` from `src/unnamed/part_000` (lines 338-363),
translated append for append; the page loop is a fold. -/
def PDFGenerator.Args (pdfg : PDFGenerator) : List String :=
  let args := [] ++ pdfg.globalOptions.Args
  let args := args ++ pdfg.outlineOptions.Args
  let args :=
    if pdfg.Cover.Input ≠ "" then
      ((args ++ ["cover"]) ++ [pdfg.Cover.Input]) ++ pdfg.Cover.pageOpts.Args
    else args
  let args :=
    if pdfg.TOC.Include then
      (((args ++ ["toc"]) ++ pdfg.TOC.pageOpts.Args) ++ pdfg.TOC.tocOpts.Args)
        ++ pdfg.TOC.hfOpts.Args
    else args
  let args := pdfg.pages.foldl
    (fun a p => ((a ++ ["page"]) ++ [p.inputFile]) ++ p.args) args
  if pdfg.OutputFile ≠ "" then args ++ [pdfg.OutputFile] else args ++ ["-"]

/-- Merge step 1 of `AddPage`: apply the global stylesheet if not set
on the page. -/
def mergeStylesheet (pdfg : PDFGenerator) (opts : PageOptions) : PageOptions :=
  if pdfg.userStyleSheetPath ≠ "" && opts.po.UserStyleSheet.value == "" then
    { opts with po := { opts.po with
        UserStyleSheet := opts.po.UserStyleSheet.set pdfg.userStyleSheetPath } }
  else opts

/-- Merge step 2 of `AddPage`: apply the global header if not set on
the page. -/
def mergeHeader (pdfg : PDFGenerator) (opts : PageOptions) : PageOptions :=
  if pdfg.headerHTMLPath ≠ "" && opts.hf.HeaderHTML.value == "" then
    { opts with hf := { opts.hf with
        HeaderHTML := opts.hf.HeaderHTML.set pdfg.headerHTMLPath } }
  else opts

/-- Merge step 3 of `AddPage`: apply the global footer if not set on
the page. -/
def mergeFooter (pdfg : PDFGenerator) (opts : PageOptions) : PageOptions :=
  if pdfg.footerHTMLPath ≠ "" && opts.hf.FooterHTML.value == "" then
    { opts with hf := { opts.hf with
        FooterHTML := opts.hf.FooterHTML.set pdfg.footerHTMLPath } }
  else opts

/-- Merge step 4 of `AddPage`: copy each global replacement entry onto
the page only when its key is absent from the page's map (creating the
page's map when the global one exists and the page's does not). -/
def mergeReplace (pdfg : PDFGenerator) (opts : PageOptions) : PageOptions :=
  match pdfg.replace.value with
  | none => opts
  | some glob =>
    let pv := opts.hf.Replace.value.getD []
    let merged := glob.foldl
      (fun m kv => if (m.lookup kv.1).isSome then m else m ++ [kv]) pv
    { opts with hf := { opts.hf with
        Replace := { opts.hf.Replace with value := some merged } } }

/-- `PDFGenerator.AddPage` from `src/unnamed/part_000` (lines 378-409):
merge the generator's global defaults into the page's options where the
page has no own value (the four steps above, in source order), then
append the page. -/
def PDFGenerator.AddPage (pdfg : PDFGenerator) (p : PageProvider) : PDFGenerator :=
  let opts :=
    mergeReplace pdfg (mergeFooter pdfg (mergeHeader pdfg (mergeStylesheet pdfg p.options)))
  { pdfg with pages := pdfg.pages ++ [p.withOptions opts] }

/-- `SetPages` from `src/unnamed/part_000`. -/
def PDFGenerator.SetPages (pdfg : PDFGenerator) (p : List PageProvider) : PDFGenerator :=
  { pdfg with pages := p }

/-- `NewPDFPreparer` from `src/unnamed/part_000` (lines 631-650); the
executable-discovery step of `NewPDFGenerator` is external glue and not
modelled. -/
def NewPDFPreparer : PDFGenerator where
  globalOptions := newGlobalOptions
  outlineOptions := newOutlineOptions
  Cover := { Input := "", pageOpts := newPageSubOptions }
  TOC := { Include := false, pageOpts := newPageSubOptions,
           tocOpts := newTocOptions, hfOpts := newHFOptions }
  OutputFile := ""
  userStyleSheetPath := ""
  headerHTMLPath := ""
  footerHTMLPath := ""
  replace := { option := "replace", value := none }
  binPath := ""
  outbuf := ""
  pages := []

/-! ### Duplicate-flag validation and the run orchestration -/

/-- Go `strings.HasPrefix`, on the character lists of the strings. -/
def goHasPre (s pre : String) : Bool :=
  pre.data.isPrefixOf s.data

/-- The loop body of `checkDuplicateFlags` (`src/unnamed/part_000`
lines 539-553): scan the tokens, remembering every `--`-prefixed one;
fail on the first token already remembered. -/
def checkLoop : List String → List String → Option String
  | [], _ => none
  | arg :: rest, options =>
    if goHasPre arg "--" then
      if options.contains arg then some ("duplicate argument: " ++ arg)
      else checkLoop rest (options ++ [arg])
    else checkLoop rest options

/-- `checkDuplicateFlags`: the scan runs over the global option group's
args only. -/
def PDFGenerator.checkDuplicateFlags (pdfg : PDFGenerator) : Option String :=
  checkLoop pdfg.globalOptions.Args []

/-- The result of the external wkhtmltopdf process (an out-of-scope
collaborator per spec §1/§6): exit status, captured stdout, error text. -/
structure ExecResult where
  exitOk : Bool
  stdout : String
  errMsg : String

/-- The stdin-selection loop of `PDFGenerator.run` (lines 594-600 of
`src/unnamed/part_000`): the first page whose `Reader()` is non-nil
supplies stdin; calling `Reader()` may update a markdown page's memo
fields. -/
def firstReaderLoop (fs : String → Option String) (g : String → String) :
    List PageProvider → Option RVal × List PageProvider
  | [] => (none, [])
  | p :: rest =>
    let (r, p') := p.readerCall fs g
    match r with
    | some rv => (some rv, p' :: rest)
    | none =>
      let (r', rest') := firstReaderLoop fs g rest
      (r', p' :: rest')

/-- `PDFGenerator.run` from `src/unnamed/part_000` (lines 565-619):
duplicate-flag check, then buffer reset, command construction with
`Args()`, stdin selection, and the external process call (`proc`).
Returns the Go error (`none` on success) and the updated generator. -/
def PDFGenerator.run (fs : String → Option String) (g : String → String)
    (proc : List String → Option RVal → ExecResult)
    (pdfg : PDFGenerator) : Option String × PDFGenerator :=
  match pdfg.checkDuplicateFlags with
  | some e => (some e, pdfg)
  | none =>
    let args := pdfg.Args
    let pdfg := { pdfg with outbuf := "" }
    let (stdin, pages') := firstReaderLoop fs g pdfg.pages
    let pdfg := { pdfg with pages := pages' }
    let res := proc args stdin
    let pdfg := { pdfg with outbuf := res.stdout }
    if res.exitOk then (none, pdfg) else (some res.errMsg, pdfg)

/-! ### JSON interchange codec

Translated from `src/json.go`. The Go `encoding/json` marshalling of
the intermediate `jsonPDFGenerator` struct and its inverse are Go
standard-library collaborators; the codec is modelled at the level of
that intermediate structure (marshal-then-unmarshal of the struct is
the identity). -/

/-- `jsonPage` from `src/json.go`. -/
structure JsonPage where
  ptype : String
  pageOptions : PageOptions
  inputFile : String
  inputPath : String
  base64PageData : String
deriving DecidableEq

/-- `jsonPDFGenerator` from `src/json.go`. -/
structure JsonPDFGenerator where
  globalOpts : GlobalOptions
  outlineOpts : OutlineOptions
  cover : Cover
  toc : Toc
  jpages : List JsonPage
deriving DecidableEq

/-- Modelled from the spec: §4.6/§6 call for a transport-safe encoded
content blob (base64 in the code, via the out-of-scope Go standard
library). Modelled as an injective tagging encoding that shares the
properties the codec relies on: the encoding of the empty string is
empty, encoding is injective, and decoding inverts it. -/
def pageDataEncode (s : String) : String :=
  if s = "" then "" else "b64:" ++ s

/-- Modelled from the spec: inverse of `pageDataEncode`. -/
def pageDataDecode (t : String) : Except String String :=
  if t = "" then .ok ""
  else if "b64:".data.isPrefixOf t.data then .ok (t.drop 4)
  else .error "illegal page data"

/-- One iteration of the page loop of `PDFGenerator.ToJSON`
(`src/json.go` lines 38-77): build the page record, draining the
content stream of reader/markdown pages into the encoded blob. -/
def serializePage (fs : String → Option String) (g : String → String)
    (p : PageProvider) : Except String (JsonPage × PageProvider) :=
  match p with
  | .page i o =>
    .ok ({ ptype := "page", pageOptions := o, inputFile := i,
           inputPath := "", base64PageData := "" }, .page i o)
  | .pageReader inp o =>
    match inp with
    | none =>
      .ok ({ ptype := "reader", pageOptions := o, inputFile := "-",
             inputPath := "", base64PageData := "" }, .pageReader none o)
    | some br =>
      let (buf, br') := br.readAll
      .ok ({ ptype := "reader", pageOptions := o, inputFile := "-",
             inputPath := "", base64PageData := pageDataEncode buf },
           .pageReader (some br') o)
  | .markdownPage ip sk o cache rerr =>
    match markdownReader fs g ip sk cache rerr with
    | (.errReader e, _, _) =>
      .error ("error reading content for JSON serialization (from markdown): " ++ e)
    | (.bytes br, c2, e2) =>
      let (buf, _) := br.readAll
      .ok ({ ptype := "markdown", pageOptions := o, inputFile := "-",
             inputPath := ip, base64PageData := pageDataEncode buf },
           .markdownPage ip sk o c2 e2)

/-- The page loop of `ToJSON` over the whole page list. -/
def serializePages (fs : String → Option String) (g : String → String) :
    List PageProvider → Except String (List JsonPage × List PageProvider)
  | [] => .ok ([], [])
  | p :: rest =>
    match serializePage fs g p with
    | .error e => .error e
    | .ok (jp, p') =>
      match serializePages fs g rest with
      | .error e => .error e
      | .ok (jps, rest') => .ok (jp :: jps, p' :: rest')

/-- `PDFGenerator.ToJSON` from `src/json.go` (lines 29-79): the
interchange structure, together with the generator after its content
streams were drained. -/
def PDFGenerator.ToJSON (fs : String → Option String) (g : String → String)
    (pdfg : PDFGenerator) : Except String (JsonPDFGenerator × PDFGenerator) :=
  match serializePages fs g pdfg.pages with
  | .error e => .error e
  | .ok (jps, pages') =>
    .ok ({ globalOpts := pdfg.globalOptions, outlineOpts := pdfg.outlineOptions,
           cover := pdfg.Cover, toc := pdfg.TOC, jpages := jps },
         { pdfg with pages := pages' })

/-- One branch of the page loop of `NewPDFGeneratorFromJSON`
(`src/json.go` lines 102-140): rebuild one page from its record. -/
def rebuildPage (i : Nat) (jp : JsonPage) : Except String PageProvider :=
  if jp.ptype = "page" then
    if jp.inputFile = "" ∨ jp.inputFile = "-" then
      .error ("invalid InputFile value for page type on page " ++ toString i)
    else
      .ok (.page jp.inputFile jp.pageOptions)
  else if jp.ptype = "reader" then
    if jp.base64PageData = "" then
      .error ("missing Base64PageData for reader type on page " ++ toString i)
    else
      match pageDataDecode jp.base64PageData with
      | .error e =>
        .error ("error decoding base64 input for reader type on page " ++
                toString i ++ ": " ++ e)
      | .ok buf =>
        .ok (.pageReader (some ⟨buf, 0⟩) jp.pageOptions)
  else if jp.ptype = "markdown" then
    if jp.inputPath = "" then
      .error ("missing InputPath for markdown type on page " ++ toString i)
    else
      .ok (.markdownPage jp.inputPath false jp.pageOptions none none)
  else
    .error ("unknown page type " ++ jp.ptype ++
            " encountered during JSON deserialization on page " ++ toString i)

/-- The page loop of `NewPDFGeneratorFromJSON`: rebuild each page from
its record and `AddPage` it. -/
def deserializePages (i : Nat) (pdfg : PDFGenerator) :
    List JsonPage → Except String PDFGenerator
  | [] => .ok pdfg
  | jp :: rest =>
    match rebuildPage i jp with
    | .error e => .error e
    | .ok q => deserializePages (i + 1) (pdfg.AddPage q) rest

/-- `NewPDFGeneratorFromJSON` from `src/json.go` (lines 83-143): a
fresh generator with the stored option groups, cover and TOC restored,
then the pages re-added. -/
def NewPDFGeneratorFromJSON (j : JsonPDFGenerator) : Except String PDFGenerator :=
  let pdfg := NewPDFPreparer
  let pdfg := { pdfg with
    TOC := j.toc, Cover := j.cover,
    globalOptions := j.globalOpts, outlineOptions := j.outlineOpts }
  deserializePages 0 pdfg j.jpages

/-- First-some choice on optional strings (Go map-lookup fallback). -/
def oOr (a b : Option String) : Option String :=
  match a with
  | some v => some v
  | none => b

/-- Lookup in a possibly-nil association map. -/
def aLookup (m : Option (List (String × String))) (k : String) : Option String :=
  (m.getD []).lookup k

/-- Join lines back into a newline-terminated text. -/
def joinNL (ls : List (List Char)) : List Char :=
  ls.flatMap fun l => l ++ ['\n']

/-- A well-formed scanner line: contains no newline and does not end in
a carriage return. -/
def goodLine (l : List Char) : Bool :=
  !(l.contains '\n') && !(l.getLast? == some '\r')

/-! ### Concrete documents and collaborators used by witnesses and
counterexamples -/

/-- A trivial filesystem: every read fails. -/
def fs0 : String → Option String := fun _ => none

/-- A trivial markdown transform. -/
def g0 : String → String := id

/-- An external process that always succeeds. -/
def procOk : List String → Option RVal → ExecResult :=
  fun _ _ => { exitOk := true, stdout := "PDF", errMsg := "" }

/-- The §8 concrete scenario document: letter page size, 25mm top
margin, one located page. -/
def c8doc : PDFGenerator :=
  ({ NewPDFPreparer with
     globalOptions := { newGlobalOptions with
       PageSize := newGlobalOptions.PageSize.set PageSizeLetter
       MarginTopUnit := newGlobalOptions.MarginTopUnit.set "25mm" } }).AddPage
    (NewPage "https://example.com")

/-- A document with the `--margin-right` flag emitted twice by the
global group (`TestDuplicateOptions` in `src/unnamed/part_004`). -/
def dupDoc : PDFGenerator :=
  { NewPDFPreparer with
    globalOptions := { newGlobalOptions with
      MarginRight := newGlobalOptions.MarginRight.set 1
      MarginRightUnit := newGlobalOptions.MarginRightUnit.set "1cm" } }

/-- A page whose map-kind options both carry two entries. -/
def c7page : PageProvider :=
  (NewPage "https://example.com").withOptions
    { po := { newPageSubOptions with
        CustomHeader := (newPageSubOptions.CustomHeader.set "X-A" "1").set "X-B" "2" },
      hf := { newHFOptions with
        Replace := (newHFOptions.Replace.set "author" "me").set "title" "t" } }

/-- A document containing `c7page`. -/
def c7mapDoc : PDFGenerator := NewPDFPreparer.AddPage c7page

/-- A document with a named output file and one located page. -/
def c4doc : PDFGenerator :=
  ({ NewPDFPreparer with OutputFile := "out.pdf" }).AddPage
    (NewPage "https://example.com")

/-- The argument vector obtained by a JSON round trip of `c4doc`. -/
def c4rt : List String :=
  match c4doc.ToJSON fs0 g0 with
  | .ok (j, _) =>
    match NewPDFGeneratorFromJSON j with
    | .ok d₂ => d₂.Args
    | .error _ => []
  | .error _ => []

/-- A page that survives the JSON round trip unchanged: a located page
whose locator is neither empty nor the stdin sentinel, or a stream page
with a non-nil reader holding at least one remaining byte. -/
def goodPage : PageProvider → Bool
  | .page i _ => !(i == "") && !(i == "-")
  | .pageReader (some br) _ => !(br.remaining == "")
  | .pageReader none _ => false
  | .markdownPage .. => false

/-- The page reconstructed by deserializing the serialization of a
page. -/
def rebuilt : PageProvider → PageProvider
  | .page i o => .page i o
  | .pageReader inp o => .pageReader (some ⟨(inp.getD ⟨"", 0⟩).remaining, 0⟩) o
  | .markdownPage ip _ o _ _ => .markdownPage ip false o none none

/-- A document with two stream pages, both with non-nil readers. -/
def c9doc : PDFGenerator :=
  (NewPDFPreparer.AddPage (NewPageReader (some ⟨"alpha", 0⟩))).AddPage
    (NewPageReader (some ⟨"beta", 0⟩))

/-- A document with one located page and one stream page with
non-empty content. -/
def c4okDoc : PDFGenerator :=
  (NewPDFPreparer.AddPage (NewPage "https://example.com")).AddPage
    (NewPageReader (some ⟨"hello", 0⟩))

/-- A document with a single stream page carrying two bytes. -/
def c10doc : PDFGenerator :=
  NewPDFPreparer.AddPage (NewPageReader (some ⟨"ab", 0⟩))

/-- The generator state left behind by serializing `c10doc`. -/
def c10doc' : PDFGenerator :=
  match c10doc.ToJSON fs0 g0 with
  | .ok (_, d') => d'
  | .error _ => c10doc

/-- The interchange structure produced by serializing `c10doc`. -/
def c10j : JsonPDFGenerator :=
  match c10doc.ToJSON fs0 g0 with
  | .ok (j, _) => j
  | .error _ => { globalOpts := newGlobalOptions, outlineOpts := newOutlineOptions,
                  cover := { Input := "", pageOpts := newPageSubOptions },
                  toc := { Include := false, pageOpts := newPageSubOptions,
                           tocOpts := newTocOptions, hfOpts := newHFOptions },
                  jpages := [] }

/-! ### Shared lemmas -/

theorem foldl_pages (pages : List PageProvider) (init : List String) :
    pages.foldl (fun a p => ((a ++ ["page"]) ++ [p.inputFile]) ++ p.args) init
      = init ++ pages.flatMap (fun p => "page" :: p.inputFile :: p.args) := by
  induction pages generalizing init with
  | nil => simp
  | cons p rest ih =>
    rw [List.foldl_cons, ih]
    simp [List.append_assoc]

/-- The flattened form of the serializer: global args, outline args,
optional cover block, optional TOC block, one page block per page in
order, then exactly one output token. -/
theorem args_eq_flat (pdfg : PDFGenerator) :
    pdfg.Args =
      pdfg.globalOptions.Args ++ pdfg.outlineOptions.Args
      ++ (if pdfg.Cover.Input ≠ "" then
            "cover" :: pdfg.Cover.Input :: pdfg.Cover.pageOpts.Args else [])
      ++ (if pdfg.TOC.Include then
            "toc" :: (pdfg.TOC.pageOpts.Args ++ pdfg.TOC.tocOpts.Args
                      ++ pdfg.TOC.hfOpts.Args)
          else [])
      ++ pdfg.pages.flatMap (fun p => "page" :: p.inputFile :: p.args)
      ++ [if pdfg.OutputFile ≠ "" then pdfg.OutputFile else "-"] := by
  simp only [PDFGenerator.Args, foldl_pages]
  by_cases h1 : pdfg.Cover.Input = "" <;> by_cases h2 : pdfg.TOC.Include <;>
    by_cases h3 : pdfg.OutputFile = "" <;>
      simp [h1, h2, h3, List.append_assoc]

/-! ### C1 -/

/-- C1: for every document state, `PDFGenerator.Args()` returns the
arguments in the fixed component order: global option group args,
outline option group args, the cover block (only for a non-empty cover
locator), the TOC block (only when TOC inclusion is enabled), a
`page`/locator/per-page-args block for each page in insertion order,
and exactly one output-target token (`OutputFile` if non-empty, else
the sentinel `-`). -/
theorem c1_args_component_order (pdfg : PDFGenerator) :
    pdfg.Args =
      pdfg.globalOptions.Args ++ pdfg.outlineOptions.Args
      ++ (if pdfg.Cover.Input ≠ "" then
            "cover" :: pdfg.Cover.Input :: pdfg.Cover.pageOpts.Args else [])
      ++ (if pdfg.TOC.Include then
            "toc" :: (pdfg.TOC.pageOpts.Args ++ pdfg.TOC.tocOpts.Args
                      ++ pdfg.TOC.hfOpts.Args)
          else [])
      ++ pdfg.pages.flatMap (fun p => "page" :: p.inputFile :: p.args)
      ++ [if pdfg.OutputFile ≠ "" then pdfg.OutputFile else "-"] :=
  args_eq_flat pdfg

/-! ### C5 -/

/-- C5: the first `Reader()` call of a derived-markup page fully
determines all later calls: a second call returns the identical reader
value (byte-identical contents on success, the verbatim stored error on
failure) and leaves the page unchanged, regardless of the filesystem
and transform supplied to the second call (so the source is neither
re-read nor re-transformed). -/
theorem c5_markdown_reader_memoized (fs fs' : String → Option String)
    (g g' : String → String) (ip : String) (sk : Bool) (o : PageOptions)
    (cache rerr : Option String) :
    PageProvider.readerCall fs' g'
        (PageProvider.readerCall fs g (.markdownPage ip sk o cache rerr)).2
      = PageProvider.readerCall fs g (.markdownPage ip sk o cache rerr) := by
  cases rerr with
  | some e => rfl
  | none =>
    cases cache with
    | some c => rfl
    | none =>
      cases h : fs ip with
      | none => simp [PageProvider.readerCall, markdownReader, h]
      | some md => simp [PageProvider.readerCall, markdownReader, h]

/-! ### C7 -/

/-- C7: `Args()` is a pure function of the document value — in this
embedding a second call on an unmutated document is definitionally the
same term, and the theorem adds that the result does not depend on the
non-configuration state mutated by a build (the output buffer and the
cached binary path); the second conjunct pins the full argument vector
of a document whose map-kind options (`custom-header`, `replace`) each
hold two entries. -/
theorem c7_args_deterministic :
    (∀ (d : PDFGenerator) (buf bin : String),
      PDFGenerator.Args { d with outbuf := buf, binPath := bin } = d.Args)
    ∧ c7mapDoc.Args =
        ["page", "https://example.com",
         "--custom-header", "X-A", "1", "--custom-header", "X-B", "2",
         "--replace", "author", "me", "--replace", "title", "t", "-"] := by
  constructor
  · intro d buf bin
    cases d
    rfl
  · rfl

/-! ### C8 -/

/-- C8: for a document whose only configuration is the letter page
size, a 25mm top margin and one located page at
`https://example.com`, `Args()` begins with
`--page-size Letter --margin-top 25mm page https://example.com` and
ends with the sentinel `-`. -/
theorem c8_concrete_scenario :
    c8doc.Args.take 6 =
      ["--page-size", "Letter", "--margin-top", "25mm", "page",
       "https://example.com"]
    ∧ c8doc.Args.getLast? = some "-" :=
  ⟨rfl, rfl⟩

/-! ### C2 -/

theorem checkLoop_eq_none_iff (l : List String) :
    ∀ seen : List String, seen.Nodup →
      (checkLoop l seen = none ↔
        (seen ++ l.filter (fun a => goHasPre a "--")).Nodup) := by
  induction l with
  | nil => intro seen hs; simpa [checkLoop]
  | cons a rest ih =>
    intro seen hs
    by_cases hp : goHasPre a "--" = true
    · by_cases hmem : seen.contains a
      · have ha : a ∈ seen := by simpa using hmem
        rw [List.filter_cons_of_pos (by simpa using hp)]
        simp only [checkLoop, hp, hmem, if_true]
        constructor
        · intro h; cases h
        · intro h
          have hd := (List.nodup_append.mp h).2.2
          exact absurd (List.mem_cons_self a _) (hd ha)
      · have ha : a ∉ seen := by simpa using hmem
        have hns : (seen ++ [a]).Nodup := by
          simp [List.nodup_append, hs, ha]
        have hm : seen.contains a = false := by simpa using hmem
        rw [List.filter_cons_of_pos (by simpa using hp)]
        simp only [checkLoop, hp, hm, if_true, Bool.false_eq_true, if_false]
        rw [ih (seen ++ [a]) hns]
        constructor
        · intro h
          simpa [List.append_assoc] using h
        · intro h
          simpa [List.append_assoc] using h
    · have hp' : goHasPre a "--" = false := by simpa using hp
      rw [List.filter_cons_of_neg (by simpa using hp)]
      simp only [checkLoop, hp', Bool.false_eq_true, if_false]
      exact ih seen hs

theorem checkLoop_eq_some (l : List String) :
    ∀ (seen : List String) (s : String), checkLoop l seen = some s →
      ∃ a, s = "duplicate argument: " ++ a ∧ goHasPre a "--" = true ∧
        a ∈ l ∧ (a ∈ seen ∨ 2 ≤ l.count a) := by
  induction l with
  | nil => intro seen s h; cases h
  | cons b rest ih =>
    intro seen s h
    by_cases hp : goHasPre b "--" = true
    · by_cases hmem : seen.contains b
      · simp only [checkLoop, hp, hmem, if_true] at h
        exact ⟨b, by simpa using h.symm, hp, by simp,
               Or.inl (by simpa using hmem)⟩
      · have hm : seen.contains b = false := by simpa using hmem
        simp only [checkLoop, hp, hm, if_true, Bool.false_eq_true, if_false] at h
        obtain ⟨a, hsa, hpa, hal, hor⟩ := ih (seen ++ [b]) s h
        refine ⟨a, hsa, hpa, by simp [hal], ?_⟩
        rcases hor with hseen | hcnt
        · rcases List.mem_append.mp hseen with h1 | h2
          · exact Or.inl h1
          · have hab : a = b := by simpa using h2
            subst hab
            refine Or.inr ?_
            have h1 : 1 ≤ rest.count a := List.count_pos_iff.mpr hal
            rw [List.count_cons_self]
            omega
        · refine Or.inr ?_
          calc 2 ≤ rest.count a := hcnt
            _ ≤ (b :: rest).count a := List.count_le_count_cons ..
    · have hp' : goHasPre b "--" = false := by simpa using hp
      simp only [checkLoop, hp', Bool.false_eq_true, if_false] at h
      obtain ⟨a, hsa, hpa, hal, hor⟩ := ih seen s h
      have hab : a ≠ b := fun he => by rw [he] at hpa; rw [hpa] at hp'; cases hp'
      refine ⟨a, hsa, hpa, by simp [hal], ?_⟩
      rcases hor with h1 | h2
      · exact Or.inl h1
      · exact Or.inr (by simpa [List.count_cons, hab] using h2)

theorem count_filter_flagged (l : List String) (a : String)
    (ha : goHasPre a "--" = true) :
    (l.filter (fun x => goHasPre x "--")).count a = l.count a := by
  induction l with
  | nil => rfl
  | cons b rest ih =>
    by_cases hb : goHasPre b "--" = true
    · rw [List.filter_cons_of_pos (by simpa using hb)]
      simp [List.count_cons, ih]
    · rw [List.filter_cons_of_neg (by simpa using hb)]
      have hab : a ≠ b := fun he => by rw [he] at ha; exact hb ha
      simp [List.count_cons, hab, ih]

/-- C2: the duplicate-argument check fails, with an error naming the
offending `--`-prefixed flag token, exactly when that token occurs more
than once in the global option group's `Args()` output (only the global
group is inspected — the statement mentions no other group); and on
failure the build aborts before the external process is consulted: for
every process `proc`, `run` returns the same error and leaves the whole
generator state, the output buffer included, unchanged. -/
theorem c2_duplicate_flags (pdfg : PDFGenerator) (fs : String → Option String)
    (g : String → String) (proc : List String → Option RVal → ExecResult) :
    ((∃ s, pdfg.checkDuplicateFlags = some s) ↔
      ∃ a, goHasPre a "--" = true ∧ 2 ≤ pdfg.globalOptions.Args.count a)
    ∧ (∀ s, pdfg.checkDuplicateFlags = some s →
        (∃ a, s = "duplicate argument: " ++ a ∧ goHasPre a "--" = true ∧
          2 ≤ pdfg.globalOptions.Args.count a)
        ∧ pdfg.run fs g proc = (some s, pdfg)) := by
  constructor
  · constructor
    · rintro ⟨s, hs⟩
      obtain ⟨a, _, hpa, _, hor⟩ :=
        checkLoop_eq_some pdfg.globalOptions.Args [] s hs
      rcases hor with h1 | h2
      · cases h1
      · exact ⟨a, hpa, h2⟩
    · rintro ⟨a, hpa, hcnt⟩
      rcases h : pdfg.checkDuplicateFlags with _ | s
      · exfalso
        have hnd := (checkLoop_eq_none_iff pdfg.globalOptions.Args []
          (by simp)).mp h
        simp only [List.nil_append] at hnd
        have := List.nodup_iff_count_le_one.mp hnd a
        rw [count_filter_flagged _ _ hpa] at this
        omega
      · exact ⟨s, rfl⟩
  · intro s hs
    refine ⟨?_, ?_⟩
    · obtain ⟨a, hsa, hpa, _, hor⟩ :=
        checkLoop_eq_some pdfg.globalOptions.Args [] s hs
      rcases hor with h1 | h2
      · cases h1
      · exact ⟨a, hsa, hpa, h2⟩
    · simp [PDFGenerator.run, hs]

/-- Witness for C2 at a concrete input: a document setting both the
numeric and the unit top-level right margin emits `--margin-right`
twice; the check reports exactly that flag and `run` returns the error
with the generator untouched. -/
theorem c2_witness :
    dupDoc.checkDuplicateFlags = some "duplicate argument: --margin-right"
    ∧ dupDoc.run fs0 g0 procOk = (some "duplicate argument: --margin-right", dupDoc) :=
  ⟨rfl, ((c2_duplicate_flags dupDoc fs0 g0 procOk).2 _ rfl).2⟩

/-! ### C3 -/

theorem oOr_none (a : Option String) : oOr a none = a := by
  cases a <;> rfl

theorem lookup_append (l1 l2 : List (String × String)) (k : String) :
    (l1 ++ l2).lookup k = oOr (l1.lookup k) (l2.lookup k) := by
  induction l1 with
  | nil => simp [oOr]
  | cons p r ih =>
    obtain ⟨k0, v0⟩ := p
    by_cases h : k = k0
    · simp [List.lookup, h, oOr]
    · simp only [List.cons_append, List.lookup, beq_eq_false_iff_ne.mpr h]
      exact ih

theorem lookup_mergeFold (glob : List (String × String)) :
    ∀ (pv : List (String × String)) (k : String),
      (glob.foldl (fun m kv => if (m.lookup kv.1).isSome then m else m ++ [kv])
          pv).lookup k
        = oOr (pv.lookup k) (glob.lookup k) := by
  induction glob with
  | nil => intro pv k; simp [oOr_none]
  | cons kv glob' ih =>
    intro pv k
    rw [List.foldl_cons, ih]
    obtain ⟨k0, v0⟩ := kv
    by_cases hin : (pv.lookup k0).isSome
    · simp only [hin, if_true]
      by_cases hk : k = k0
      · subst hk
        obtain ⟨v, hv⟩ := Option.isSome_iff_exists.mp hin
        simp [List.lookup, oOr, hv]
      · simp [List.lookup, beq_eq_false_iff_ne.mpr hk]
    · have hin' : (pv.lookup k0).isSome = false := by
        cases h : pv.lookup k0
        · rfl
        · exact absurd (by rw [h]; rfl) hin
      simp only [hin', Bool.false_eq_true, if_false]
      rw [lookup_append]
      by_cases hk : k = k0
      · subst hk
        have hnone : pv.lookup k = none := by
          cases h : pv.lookup k
          · rfl
          · rw [h] at hin; cases hin rfl
        simp [List.lookup, oOr, hnone]
      · simp [List.lookup, beq_eq_false_iff_ne.mpr hk, oOr_none]

theorem mergeStylesheet_value (pdfg : PDFGenerator) (o : PageOptions) :
    (mergeStylesheet pdfg o).po.UserStyleSheet.value =
      (if o.po.UserStyleSheet.value = "" then pdfg.userStyleSheetPath
       else o.po.UserStyleSheet.value) := by
  unfold mergeStylesheet
  by_cases h1 : o.po.UserStyleSheet.value = "" <;>
    by_cases h2 : pdfg.userStyleSheetPath = "" <;>
      simp [h1, h2, StringOption.set]

theorem mergeHeader_value (pdfg : PDFGenerator) (o : PageOptions) :
    (mergeHeader pdfg o).hf.HeaderHTML.value =
      (if o.hf.HeaderHTML.value = "" then pdfg.headerHTMLPath
       else o.hf.HeaderHTML.value) := by
  unfold mergeHeader
  by_cases h1 : o.hf.HeaderHTML.value = "" <;>
    by_cases h2 : pdfg.headerHTMLPath = "" <;>
      simp [h1, h2, StringOption.set]

theorem mergeFooter_value (pdfg : PDFGenerator) (o : PageOptions) :
    (mergeFooter pdfg o).hf.FooterHTML.value =
      (if o.hf.FooterHTML.value = "" then pdfg.footerHTMLPath
       else o.hf.FooterHTML.value) := by
  unfold mergeFooter
  by_cases h1 : o.hf.FooterHTML.value = "" <;>
    by_cases h2 : pdfg.footerHTMLPath = "" <;>
      simp [h1, h2, StringOption.set]

theorem mergeHeader_po (pdfg : PDFGenerator) (o : PageOptions) :
    (mergeHeader pdfg o).po = o.po := by
  unfold mergeHeader; split <;> rfl

theorem mergeFooter_po (pdfg : PDFGenerator) (o : PageOptions) :
    (mergeFooter pdfg o).po = o.po := by
  unfold mergeFooter; split <;> rfl

theorem mergeReplace_po (pdfg : PDFGenerator) (o : PageOptions) :
    (mergeReplace pdfg o).po = o.po := by
  unfold mergeReplace; split <;> rfl

theorem mergeFooter_header (pdfg : PDFGenerator) (o : PageOptions) :
    (mergeFooter pdfg o).hf.HeaderHTML = o.hf.HeaderHTML := by
  unfold mergeFooter; split <;> rfl

theorem mergeHeader_footer (pdfg : PDFGenerator) (o : PageOptions) :
    (mergeHeader pdfg o).hf.FooterHTML = o.hf.FooterHTML := by
  unfold mergeHeader; split <;> rfl

theorem mergeReplace_header (pdfg : PDFGenerator) (o : PageOptions) :
    (mergeReplace pdfg o).hf.HeaderHTML = o.hf.HeaderHTML := by
  unfold mergeReplace; split <;> rfl

theorem mergeReplace_footer (pdfg : PDFGenerator) (o : PageOptions) :
    (mergeReplace pdfg o).hf.FooterHTML = o.hf.FooterHTML := by
  unfold mergeReplace; split <;> rfl

theorem mergeStylesheet_hf (pdfg : PDFGenerator) (o : PageOptions) :
    (mergeStylesheet pdfg o).hf = o.hf := by
  unfold mergeStylesheet; split <;> rfl

theorem mergeHeader_replace (pdfg : PDFGenerator) (o : PageOptions) :
    (mergeHeader pdfg o).hf.Replace = o.hf.Replace := by
  unfold mergeHeader; split <;> rfl

theorem mergeFooter_replace (pdfg : PDFGenerator) (o : PageOptions) :
    (mergeFooter pdfg o).hf.Replace = o.hf.Replace := by
  unfold mergeFooter; split <;> rfl

theorem mergeReplace_lookup (pdfg : PDFGenerator) (o : PageOptions) (k : String) :
    aLookup (mergeReplace pdfg o).hf.Replace.value k =
      oOr (aLookup o.hf.Replace.value k) (aLookup pdfg.replace.value k) := by
  unfold mergeReplace
  cases hg : pdfg.replace.value with
  | none => simp [aLookup, oOr_none]
  | some glob =>
    simp only [aLookup, Option.getD_some]
    rw [lookup_mergeFold]

/-- C3: `AddPage(p)` appends, at the end of the page sequence, the page
`p` carrying merged options in which each of the stylesheet, header and
footer slots equals the document's global default exactly when the
page's own value was unset (and is the page's own value otherwise), and
whose replacement map answers every key from the page's own entries
first and from the global entries only for keys the page did not carry. -/
theorem c3_addpage_merge (pdfg : PDFGenerator) (p : PageProvider) :
    ∃ o : PageOptions,
      pdfg.AddPage p = { pdfg with pages := pdfg.pages ++ [p.withOptions o] }
      ∧ o.po.UserStyleSheet.value =
          (if p.options.po.UserStyleSheet.value = "" then pdfg.userStyleSheetPath
           else p.options.po.UserStyleSheet.value)
      ∧ o.hf.HeaderHTML.value =
          (if p.options.hf.HeaderHTML.value = "" then pdfg.headerHTMLPath
           else p.options.hf.HeaderHTML.value)
      ∧ o.hf.FooterHTML.value =
          (if p.options.hf.FooterHTML.value = "" then pdfg.footerHTMLPath
           else p.options.hf.FooterHTML.value)
      ∧ (∀ k, aLookup o.hf.Replace.value k =
          oOr (aLookup p.options.hf.Replace.value k)
            (aLookup pdfg.replace.value k)) := by
  refine ⟨_, rfl, ?_, ?_, ?_, ?_⟩
  · rw [mergeReplace_po, mergeFooter_po, mergeHeader_po, mergeStylesheet_value]
  · rw [mergeReplace_header, mergeFooter_header, mergeHeader_value,
      mergeStylesheet_hf]
  · rw [mergeReplace_footer, mergeFooter_value, mergeHeader_footer,
      mergeStylesheet_hf]
  · intro k
    rw [mergeReplace_lookup, mergeFooter_replace, mergeHeader_replace,
      mergeStylesheet_hf]


/-! ### C6 -/

theorem goodLine_no_nl (l : List Char) (h : goodLine l = true) :
    l.contains '\n' = false := by
  unfold goodLine at h
  cases hc : l.contains '\n'
  · rfl
  · rw [hc] at h
    simp at h

theorem goodLine_no_cr (l : List Char) (h : goodLine l = true) :
    l.getLast? ≠ some '\r' := by
  unfold goodLine at h
  intro hl
  rw [hl] at h
  simp at h

theorem dropCR_of_good (l : List Char) (h : goodLine l = true) :
    dropCRChars l = l := by
  unfold dropCRChars
  rw [if_neg (goodLine_no_cr l h)]

theorem scanLinesAux_line (l : List Char) (hnl : l.contains '\n' = false)
    (rest : List Char) :
    ∀ acc, scanLinesAux acc (l ++ ('\n' :: rest))
      = dropCRChars (acc.reverse ++ l)
        :: (if rest.isEmpty then [] else scanLinesAux [] rest) := by
  induction l with
  | nil =>
    intro acc
    simp [scanLinesAux]
  | cons c l' ih =>
    intro acc
    have hc : ¬(c = '\n') := by
      intro he
      rw [he] at hnl
      simp [List.contains_cons] at hnl
    have hl' : l'.contains '\n' = false := by
      simp [List.contains_cons] at hnl
      simpa using hnl.2
    show scanLinesAux acc (c :: (l' ++ ('\n' :: rest))) = _
    rw [scanLinesAux, if_neg (by simpa using hc), ih hl' (c :: acc)]
    simp [List.append_assoc]

theorem joinNL_cons (l : List Char) (ls : List (List Char)) :
    joinNL (l :: ls) = l ++ ('\n' :: joinNL ls) := by
  simp [joinNL]

theorem joinNL_append (xs ys : List (List Char)) :
    joinNL (xs ++ ys) = joinNL xs ++ joinNL ys := by
  simp [joinNL]

theorem joinNL_cons_isEmpty (l : List Char) (ls : List (List Char)) :
    (joinNL (l :: ls)).isEmpty = false := by
  rw [joinNL_cons]
  cases l <;> rfl

theorem scanLines_joinNL (ls : List (List Char))
    (h : ∀ l ∈ ls, goodLine l = true) : scanLines (joinNL ls) = ls := by
  induction ls with
  | nil => rfl
  | cons l ls' ih =>
    have hl := h l (by simp)
    have hg : l.contains '\n' = false := goodLine_no_nl l hl
    unfold scanLines
    rw [if_neg (by rw [joinNL_cons_isEmpty]; simp), joinNL_cons,
      scanLinesAux_line l hg (joinNL ls') [], List.reverse_nil,
      List.nil_append, dropCR_of_good l hl]
    cases ls' with
    | nil => simp [joinNL]
    | cons m ms =>
      rw [if_neg (by rw [joinNL_cons_isEmpty]; simp)]
      have hrec : scanLinesAux [] (joinNL (m :: ms))
          = scanLines (joinNL (m :: ms)) := by
        unfold scanLines
        rw [if_neg (by rw [joinNL_cons_isEmpty]; simp)]
      rw [hrec, ih (fun x hx => h x (by simp [hx]))]

theorem drop_joinNL (xs ys : List (List Char)) :
    (joinNL (xs ++ ys)).drop (joinNL xs).length = joinNL ys := by
  rw [joinNL_append, List.drop_left]

theorem blank_not_h2 (l : List Char) (h : blankL l = true) : isH2L l = false := by
  unfold blankL at h
  unfold isH2L
  rw [List.isEmpty_iff.mp h]
  rfl

theorem mdSkipLoop_pre (pre : List (List Char))
    (h : ∀ l ∈ pre, isH1L l = false) :
    ∀ (ls : List (List Char)) (off : Nat),
      mdSkipLoop (pre ++ ls) off false
        = mdSkipLoop ls (off + (joinNL pre).length) false := by
  induction pre with
  | nil => intro ls off; simp [joinNL]
  | cons l pre' ih =>
    intro ls off
    have hl : isH1L l = false := h l (by simp)
    show mdSkipLoop (l :: (pre' ++ ls)) off false = _
    rw [mdSkipLoop]
    simp only [hl, Bool.not_false, Bool.true_and, Bool.false_and,
      Bool.false_eq_true, if_false]
    rw [ih (fun x hx => h x (by simp [hx])) ls (off + (l.length + 1)),
      joinNL_cons]
    congr 1
    simp
    omega

theorem mdSkipLoop_blanks (bs : List (List Char))
    (h : ∀ l ∈ bs, blankL l = true) :
    ∀ (ls : List (List Char)) (off : Nat),
      mdSkipLoop (bs ++ ls) off true
        = mdSkipLoop ls (off + (joinNL bs).length) true := by
  induction bs with
  | nil => intro ls off; simp [joinNL]
  | cons l bs' ih =>
    intro ls off
    have hl : blankL l = true := h l (by simp)
    have h2 : isH2L l = false := blank_not_h2 l hl
    show mdSkipLoop (l :: (bs' ++ ls)) off true = _
    rw [mdSkipLoop]
    simp only [hl, h2, Bool.not_true, Bool.false_and, Bool.true_and,
      Bool.not_false, Bool.and_false, Bool.false_eq_true, if_false]
    rw [ih (fun x hx => h x (by simp [hx])) ls (off + (l.length + 1)),
      joinNL_cons]
    congr 1
    simp
    omega

theorem mdSkipLoop_h1 (l : List Char) (h : isH1L l = true)
    (ls : List (List Char)) (off : Nat) :
    mdSkipLoop (l :: ls) off false
      = mdSkipLoop ls (off + (l.length + 1)) true := by
  rw [mdSkipLoop]
  simp [h]

theorem mdSkipLoop_h2 (l : List Char) (h : isH2L l = true)
    (ls : List (List Char)) (off : Nat) :
    mdSkipLoop (l :: ls) off true = some (off + (l.length + 1)) := by
  rw [mdSkipLoop]
  simp [h]

theorem mdSkipLoop_content (l : List Char) (h2 : isH2L l = false)
    (hb : blankL l = false) (ls : List (List Char)) (off : Nat) :
    mdSkipLoop (l :: ls) off true = some off := by
  rw [mdSkipLoop]
  simp [h2, hb]

theorem mdSkipLoop_noH1 (ls : List (List Char))
    (h : ∀ l ∈ ls, isH1L l = false) :
    ∀ off, mdSkipLoop ls off false = none := by
  induction ls with
  | nil => intro off; rfl
  | cons l ls' ih =>
    intro off
    have hl : isH1L l = false := h l (by simp)
    rw [mdSkipLoop]
    simp only [hl, Bool.not_false, Bool.true_and, Bool.false_and,
      Bool.false_eq_true, if_false]
    exact ih (fun x hx => h x (by simp [hx])) _

theorem mdBytesToParse_of_loop_some (md : List Char) (n : Nat)
    (h : mdSkipLoop (scanLines md) 0 false = some n) :
    mdBytesToParse md true = md.drop n := by
  unfold mdBytesToParse
  rw [if_pos rfl, h]

theorem mdBytesToParse_of_loop_none (md : List Char)
    (h : mdSkipLoop (scanLines md) 0 false = none) :
    mdBytesToParse md true = md := by
  unfold mdBytesToParse
  rw [if_pos rfl, h]

/-- C6 (amended): with the skip flag on, the bytes handed to the
markdown-to-HTML transform are: (a) when the first top-level heading
line is followed, with only blank lines in between, by a second-level
heading line, everything from just after that heading block on; (b)
when the first top-level heading is followed (blank lines in between
tolerated) by a non-blank line that is not a second-level heading,
everything from that non-blank line on — so the heading line, the
intervening blank lines and anything before the heading are skipped,
not only the heading line; (c) when no top-level heading line exists,
the whole source.  The final conjunct is the concrete scenario: for a
source of exactly an H1 `Title`, a blank line, an H2 `Subtitle` and a
body line, the transform receives exactly the body, so neither `Title`
nor `Subtitle` can appear in the produced HTML as heading text. -/
theorem c6_skip_rule :
    (∀ (pre bs rest : List (List Char)) (h1 h2 : List Char),
      (∀ l ∈ pre ++ (h1 :: (bs ++ (h2 :: rest))), goodLine l = true) →
      (∀ l ∈ pre, isH1L l = false) → isH1L h1 = true →
      (∀ l ∈ bs, blankL l = true) → isH2L h2 = true →
      mdBytesToParse (joinNL (pre ++ (h1 :: (bs ++ (h2 :: rest))))) true
        = joinNL rest)
    ∧ (∀ (pre bs rest : List (List Char)) (h1 c : List Char),
      (∀ l ∈ pre ++ (h1 :: (bs ++ (c :: rest))), goodLine l = true) →
      (∀ l ∈ pre, isH1L l = false) → isH1L h1 = true →
      (∀ l ∈ bs, blankL l = true) → isH2L c = false → blankL c = false →
      mdBytesToParse (joinNL (pre ++ (h1 :: (bs ++ (c :: rest))))) true
        = joinNL (c :: rest))
    ∧ (∀ md : List Char,
      (∀ l ∈ scanLines md, isH1L l = false) → mdBytesToParse md true = md)
    ∧ mdBytesToParse "# Title\n\n## Subtitle\nThe body.\n".data true
        = "The body.\n".data := by
  refine ⟨?_, ?_, ?_, rfl⟩
  · intro pre bs rest h1 h2 hg hpre hh1 hbs hh2
    have hloop : mdSkipLoop (pre ++ (h1 :: (bs ++ (h2 :: rest)))) 0 false
        = some ((joinNL (pre ++ (h1 :: (bs ++ [h2])))).length) := by
      rw [mdSkipLoop_pre pre hpre, mdSkipLoop_h1 h1 hh1,
        mdSkipLoop_blanks bs hbs, mdSkipLoop_h2 h2 hh2]
      have hlen : (joinNL (pre ++ (h1 :: (bs ++ [h2])))).length
          = 0 + (joinNL pre).length + (h1.length + 1) + (joinNL bs).length
            + (h2.length + 1) := by
        rw [joinNL_append, joinNL_cons, joinNL_append]
        simp [joinNL]
        omega
      rw [hlen]
    rw [mdBytesToParse_of_loop_some _ _
      (by rw [scanLines_joinNL _ hg]; exact hloop)]
    have hsplit : pre ++ (h1 :: (bs ++ (h2 :: rest)))
        = (pre ++ (h1 :: (bs ++ [h2]))) ++ rest := by
      simp
    rw [hsplit]
    exact drop_joinNL _ _
  · intro pre bs rest h1 c hg hpre hh1 hbs hc2 hcb
    have hloop : mdSkipLoop (pre ++ (h1 :: (bs ++ (c :: rest)))) 0 false
        = some ((joinNL (pre ++ (h1 :: bs))).length) := by
      rw [mdSkipLoop_pre pre hpre, mdSkipLoop_h1 h1 hh1,
        mdSkipLoop_blanks bs hbs, mdSkipLoop_content c hc2 hcb]
      have hlen : (joinNL (pre ++ (h1 :: bs))).length
          = 0 + (joinNL pre).length + (h1.length + 1)
            + (joinNL bs).length := by
        rw [joinNL_append, joinNL_cons]
        simp [joinNL]
        omega
      rw [hlen]
    rw [mdBytesToParse_of_loop_some _ _
      (by rw [scanLines_joinNL _ hg]; exact hloop)]
    have hsplit : pre ++ (h1 :: (bs ++ (c :: rest)))
        = (pre ++ (h1 :: bs)) ++ (c :: rest) := by
      simp
    rw [hsplit]
    exact drop_joinNL _ _
  · intro md h
    exact mdBytesToParse_of_loop_none _ (mdSkipLoop_noH1 _ h _)

/-- Witness for C6 at concrete inputs: the (a) and (b) cases of the
rule evaluated on explicit line lists. -/
theorem c6_witness :
    mdBytesToParse (joinNL ["# Title".data, [], "## Subtitle".data,
        "The body.".data]) true
      = joinNL ["The body.".data]
    ∧ mdBytesToParse (joinNL ["x".data, "# T".data, [], "body".data]) true
      = joinNL ["body".data] := by
  constructor
  · exact c6_skip_rule.1 [] [[]] ["The body.".data] "# Title".data
      "## Subtitle".data (by decide) (by decide) (by decide) (by decide)
      (by decide)
  · exact c6_skip_rule.2.1 ["x".data] [[]] [] "# T".data "body".data
      (by decide) (by decide) (by decide) (by decide) (by decide) (by decide)

/-- Counterexample for C6 as stated: for the source
`x`, `# T`, blank, `body`, case (b) of the claim announces that only
the top-level heading line is skipped, which would hand
`x`, blank, `body` to the transform; the code instead hands only
`body` — the blank line after the heading and the content before it are
dropped as well. -/
theorem c6_counterexample :
    mdBytesToParse "x\n# T\n\nbody\n".data true = "body\n".data
    ∧ mdBytesToParse "x\n# T\n\nbody\n".data true ≠ "x\n\nbody\n".data := by
  exact ⟨rfl, by decide⟩

/-! ### C9 -/

theorem firstReaderLoop_fst (fs : String → Option String) (g : String → String)
    (pages : List PageProvider) :
    (firstReaderLoop fs g pages).1 =
      (pages.find? (fun p => (p.readerCall fs g).1.isSome)).bind
        (fun p => (p.readerCall fs g).1) := by
  induction pages with
  | nil => rfl
  | cons p rest ih =>
    rcases hrc : p.readerCall fs g with ⟨r, p'⟩
    cases r with
    | some rv =>
      rw [List.find?_cons_of_pos _ (by rw [hrc]; rfl)]
      simp [firstReaderLoop, hrc]
    | none =>
      rw [List.find?_cons_of_neg _ (by rw [hrc]; simp)]
      simp [firstReaderLoop, hrc, ih]

/-- C9: a document with two or more pages whose `Reader()` is non-nil
is not rejected at the validation level — provided the global
duplicate-flag check passes and the external process succeeds, the
build succeeds — and the stream connected as standard input is exactly
the one of the first page, in sequence order, whose `Reader()` is
non-nil (the streams of all later pages are ignored). -/
theorem c9_multiple_streams (fs : String → Option String) (g : String → String)
    (proc : List String → Option RVal → ExecResult) (pdfg : PDFGenerator)
    (_hcount : 2 ≤ (pdfg.pages.filter
      (fun p => (p.readerCall fs g).1.isSome)).length)
    (hnd : pdfg.checkDuplicateFlags = none)
    (hok : (proc pdfg.Args (firstReaderLoop fs g pdfg.pages).1).exitOk = true) :
    (pdfg.run fs g proc).1 = none
    ∧ (firstReaderLoop fs g pdfg.pages).1 =
        (pdfg.pages.find? (fun p => (p.readerCall fs g).1.isSome)).bind
          (fun p => (p.readerCall fs g).1) := by
  refine ⟨?_, firstReaderLoop_fst fs g pdfg.pages⟩
  rcases hfr : firstReaderLoop fs g pdfg.pages with ⟨stdin, pages'⟩
  rw [hfr] at hok
  simp [PDFGenerator.run, hnd, hfr, hok]

/-- Witness for C9 at a concrete input: a document with two stream
pages, both carrying non-nil readers. -/
theorem c9_witness :
    (c9doc.run fs0 g0 procOk).1 = none
    ∧ (firstReaderLoop fs0 g0 c9doc.pages).1 =
        (c9doc.pages.find? (fun p => (p.readerCall fs0 g0).1.isSome)).bind
          (fun p => (p.readerCall fs0 g0).1) :=
  c9_multiple_streams fs0 g0 procOk c9doc (by decide) rfl rfl

/-! ### C10 -/

theorem drop_self_length (s : String) : s.drop s.length = "" := by
  rw [String.drop_eq]
  show String.mk (s.data.drop s.data.length) = ""
  rw [List.drop_length]

theorem readAll_consumed (b : ByteReader) : b.readAll.2.remaining = "" := by
  unfold ByteReader.readAll ByteReader.remaining
  exact drop_self_length b.data

theorem serializePage_page (fs : String → Option String) (g : String → String)
    (i : String) (o : PageOptions) :
    serializePage fs g (.page i o)
      = .ok ({ ptype := "page", pageOptions := o, inputFile := i,
               inputPath := "", base64PageData := "" }, .page i o) := rfl

theorem serializePage_reader_none (fs : String → Option String)
    (g : String → String) (o : PageOptions) :
    serializePage fs g (.pageReader none o)
      = .ok ({ ptype := "reader", pageOptions := o, inputFile := "-",
               inputPath := "", base64PageData := "" }, .pageReader none o) := rfl

theorem serializePage_reader_some (fs : String → Option String)
    (g : String → String) (br : ByteReader) (o : PageOptions) :
    serializePage fs g (.pageReader (some br) o)
      = .ok ({ ptype := "reader", pageOptions := o, inputFile := "-",
               inputPath := "",
               base64PageData := pageDataEncode br.remaining },
             .pageReader (some ⟨br.data, br.data.length⟩) o) := rfl

theorem serializePage_markdown_err (fs : String → Option String)
    (g : String → String) (ip : String) (sk : Bool) (o : PageOptions)
    (cache rerr c2 e2 : Option String) (e : String)
    (h : markdownReader fs g ip sk cache rerr = (.errReader e, c2, e2)) :
    serializePage fs g (.markdownPage ip sk o cache rerr)
      = .error ("error reading content for JSON serialization (from markdown): "
          ++ e) := by
  simp only [serializePage]
  rw [h]

theorem serializePage_markdown_ok (fs : String → Option String)
    (g : String → String) (ip : String) (sk : Bool) (o : PageOptions)
    (cache rerr c2 e2 : Option String) (br : ByteReader)
    (h : markdownReader fs g ip sk cache rerr = (.bytes br, c2, e2)) :
    serializePage fs g (.markdownPage ip sk o cache rerr)
      = .ok ({ ptype := "markdown", pageOptions := o, inputFile := "-",
               inputPath := ip,
               base64PageData := pageDataEncode br.remaining },
             .markdownPage ip sk o c2 e2) := by
  simp only [serializePage]
  rw [h]
  rfl

theorem serializePages_consumed (fs : String → Option String)
    (g : String → String) :
    ∀ (pages : List PageProvider) (jps : List JsonPage)
      (pages' : List PageProvider),
      serializePages fs g pages = .ok (jps, pages') →
      ∀ (br : ByteReader) (o : PageOptions),
        PageProvider.pageReader (some br) o ∈ pages' → br.remaining = "" := by
  intro pages
  induction pages with
  | nil =>
    intro jps pages' h br o hm
    injection h with h
    injection h with _ h2
    rw [← h2] at hm
    cases hm
  | cons p rest ih =>
    intro jps pages' h br o hm
    unfold serializePages at h
    cases hs : serializePage fs g p with
    | error e => rw [hs] at h; cases h
    | ok v =>
      rcases v with ⟨jp, p'⟩
      rw [hs] at h
      cases hr : serializePages fs g rest with
      | error e => rw [hr] at h; cases h
      | ok w =>
        rcases w with ⟨jps', rest'⟩
        rw [hr] at h
        injection h with h
        injection h with h1 h2
        rw [← h2] at hm
        rcases List.mem_cons.mp hm with hhd | htl
        · cases p with
          | page i o0 =>
            rw [serializePage_page] at hs
            injection hs with hs
            injection hs with hsa hsb
            rw [← hsb] at hhd
            cases hhd
          | pageReader inp o0 =>
            cases inp with
            | none =>
              rw [serializePage_reader_none] at hs
              injection hs with hs
              injection hs with hsa hsb
              rw [← hsb] at hhd
              cases hhd
            | some br0 =>
              rw [serializePage_reader_some] at hs
              injection hs with hs
              injection hs with hsa hsb
              rw [← hsb] at hhd
              injection hhd with hinp hopt
              injection hinp with hbr
              rw [hbr]
              show ByteReader.remaining ⟨br0.data, br0.data.length⟩ = ""
              unfold ByteReader.remaining
              exact drop_self_length br0.data
          | markdownPage ip sk o0 cache rerr =>
            rcases hmr : markdownReader fs g ip sk cache rerr with ⟨r, c2, e2⟩
            cases r with
            | errReader e =>
              rw [serializePage_markdown_err fs g ip sk o0 cache rerr c2 e2 e
                hmr] at hs
              cases hs
            | bytes br1 =>
              rw [serializePage_markdown_ok fs g ip sk o0 cache rerr c2 e2 br1
                hmr] at hs
              injection hs with hs
              injection hs with hsa hsb
              rw [← hsb] at hhd
              cases hhd
        · exact ih jps' rest' hr br o htl

theorem pageDataEncode_empty : pageDataEncode "" = "" := rfl

theorem serializePages_reader_blob_empty (fs : String → Option String)
    (g : String → String) :
    ∀ (pages : List PageProvider) (jps : List JsonPage)
      (pages' : List PageProvider),
      (∀ (br : ByteReader) (o : PageOptions),
        PageProvider.pageReader (some br) o ∈ pages → br.remaining = "") →
      serializePages fs g pages = .ok (jps, pages') →
      ∀ jp ∈ jps, jp.ptype = "reader" → jp.base64PageData = "" := by
  intro pages
  induction pages with
  | nil =>
    intro jps pages' _ h jp hm
    injection h with h
    injection h with h1 _
    rw [← h1] at hm
    cases hm
  | cons p rest ih =>
    intro jps pages' hexh h jp hm hty
    unfold serializePages at h
    cases hs : serializePage fs g p with
    | error e => rw [hs] at h; cases h
    | ok v =>
      rcases v with ⟨jp0, p'⟩
      rw [hs] at h
      cases hr : serializePages fs g rest with
      | error e => rw [hr] at h; cases h
      | ok w =>
        rcases w with ⟨jps', rest'⟩
        rw [hr] at h
        injection h with h
        injection h with h1 h2
        rw [← h1] at hm
        rcases List.mem_cons.mp hm with hhd | htl
        · subst hhd
          cases p with
          | page i o0 =>
            rw [serializePage_page] at hs
            injection hs with hs
            injection hs with hsa hsb
            rw [← hsa] at hty
            simp at hty
          | pageReader inp o0 =>
            cases inp with
            | none =>
              rw [serializePage_reader_none] at hs
              injection hs with hs
              injection hs with hsa hsb
              rw [← hsa]
            | some br0 =>
              rw [serializePage_reader_some] at hs
              injection hs with hs
              injection hs with hsa hsb
              rw [← hsa]
              show pageDataEncode br0.remaining = ""
              rw [hexh br0 o0 (by simp)]
              rfl
          | markdownPage ip sk o0 cache rerr =>
            rcases hmr : markdownReader fs g ip sk cache rerr with ⟨r, c2, e2⟩
            cases r with
            | errReader e =>
              rw [serializePage_markdown_err fs g ip sk o0 cache rerr c2 e2 e
                hmr] at hs
              cases hs
            | bytes br1 =>
              rw [serializePage_markdown_ok fs g ip sk o0 cache rerr c2 e2 br1
                hmr] at hs
              injection hs with hs
              injection hs with hsa hsb
              rw [← hsa] at hty
              simp at hty
        · exact ih jps' rest'
            (fun br o hmem => hexh br o (by simp [hmem])) hr jp htl hty

theorem toJSON_ok_parts (fs : String → Option String) (g : String → String)
    (pdfg : PDFGenerator) (j : JsonPDFGenerator) (pdfg' : PDFGenerator)
    (h : pdfg.ToJSON fs g = .ok (j, pdfg')) :
    ∃ jps pages', serializePages fs g pdfg.pages = .ok (jps, pages')
      ∧ pdfg'.pages = pages' ∧ j.jpages = jps := by
  unfold PDFGenerator.ToJSON at h
  cases hsp : serializePages fs g pdfg.pages with
  | error e => rw [hsp] at h; cases h
  | ok w =>
    rcases w with ⟨jps, pages'⟩
    rw [hsp] at h
    injection h with h
    injection h with hj hp
    exact ⟨jps, pages', rfl, by rw [← hp], by rw [← hj]⟩

/-- C10: a successful `ToJSON` fully drains every stream page's reader:
in the generator state it leaves behind, every stream page's reader has
no remaining bytes (so its `Reader()`, which returns the same reader
object, yields nothing); hence a `Create()` on that state that selects
a stream page's reader as standard input pipes an empty stream, and a
second `ToJSON` embeds an empty content blob for every stream page. -/
theorem c10_tojson_drains (fs : String → Option String) (g : String → String)
    (pdfg : PDFGenerator) (j : JsonPDFGenerator) (pdfg' : PDFGenerator)
    (h : pdfg.ToJSON fs g = .ok (j, pdfg')) :
    (∀ (br : ByteReader) (o : PageOptions),
      PageProvider.pageReader (some br) o ∈ pdfg'.pages → br.remaining = "")
    ∧ (∀ (j2 : JsonPDFGenerator) (pdfg2 : PDFGenerator),
        pdfg'.ToJSON fs g = .ok (j2, pdfg2) →
        ∀ jp ∈ j2.jpages, jp.ptype = "reader" → jp.base64PageData = "")
    ∧ (∀ (br : ByteReader) (o : PageOptions),
        (pdfg'.pages.find? (fun p => (p.readerCall fs g).1.isSome))
            = some (.pageReader (some br) o) →
        br.remaining = "") := by
  obtain ⟨jps, pages', hsp, hpg, -⟩ := toJSON_ok_parts fs g pdfg j pdfg' h
  have hcons : ∀ (br : ByteReader) (o : PageOptions),
      PageProvider.pageReader (some br) o ∈ pdfg'.pages → br.remaining = "" := by
    rw [hpg]
    exact serializePages_consumed fs g pdfg.pages jps pages' hsp
  refine ⟨hcons, ?_, ?_⟩
  · intro j2 pdfg2 h2 jp hm hty
    obtain ⟨jps2, pages2, hsp2, -, hj2⟩ :=
      toJSON_ok_parts fs g pdfg' j2 pdfg2 h2
    rw [hj2] at hm
    exact serializePages_reader_blob_empty fs g pdfg'.pages jps2 pages2
      hcons hsp2 jp hm hty
  · intro br o hfind
    exact hcons br o (List.mem_of_find?_eq_some hfind)

/-- Witness for C10 at a concrete input: serializing a document with a
single two-byte stream page leaves the reader exhausted. -/
theorem c10_witness :
    (∀ (br : ByteReader) (o : PageOptions),
      PageProvider.pageReader (some br) o ∈ c10doc'.pages →
        br.remaining = "")
    ∧ (∀ (br : ByteReader) (o : PageOptions),
        (c10doc'.pages.find? (fun p => (p.readerCall fs0 g0).1.isSome))
            = some (.pageReader (some br) o) →
        br.remaining = "") :=
  ⟨(c10_tojson_drains fs0 g0 c10doc c10j c10doc' rfl).1,
   (c10_tojson_drains fs0 g0 c10doc c10j c10doc' rfl).2.2⟩

/-! ### C4 -/

theorem withOptions_options (p : PageProvider) : p.withOptions p.options = p := by
  cases p <;> rfl

/-- On a generator with no configured global defaults, `AddPage` only
appends. -/
theorem addPage_plain (pdfg : PDFGenerator) (p : PageProvider)
    (h1 : pdfg.userStyleSheetPath = "") (h2 : pdfg.headerHTMLPath = "")
    (h3 : pdfg.footerHTMLPath = "") (h4 : pdfg.replace.value = none) :
    pdfg.AddPage p = { pdfg with pages := pdfg.pages ++ [p] } := by
  unfold PDFGenerator.AddPage mergeReplace mergeFooter mergeHeader
    mergeStylesheet
  rw [h1, h2, h3, h4]
  simp [withOptions_options]

theorem isPrefixOf_self_append : ∀ (l m : List Char), l.isPrefixOf (l ++ m) = true
  | [], _ => by simp [List.isPrefixOf]
  | c :: l', m => by
    simp [List.isPrefixOf, isPrefixOf_self_append l' m]

theorem tagged_ne_empty (s : String) : "b64:" ++ s ≠ "" := by
  intro he
  have hlen := congrArg String.length he
  rw [String.length_append] at hlen
  have h4 : ("b64:" : String).length = 4 := rfl
  have h0 : ("" : String).length = 0 := rfl
  rw [h4, h0] at hlen
  omega

theorem pageDataEncode_ne_empty (s : String) (h : s ≠ "") :
    pageDataEncode s ≠ "" := by
  unfold pageDataEncode
  rw [if_neg h]
  exact tagged_ne_empty s

theorem pageData_round (s : String) (h : s ≠ "") :
    pageDataDecode (pageDataEncode s) = .ok s := by
  unfold pageDataEncode pageDataDecode
  rw [if_neg h, if_neg (tagged_ne_empty s)]
  rw [if_pos (by
    have hd : ("b64:" ++ s).data = "b64:".data ++ s.data := by simp
    rw [hd]
    exact isPrefixOf_self_append "b64:".data s.data)]
  have hdrop : ("b64:" ++ s).drop 4 = s := by
    rw [String.drop_eq]
    show String.mk (("b64:" ++ s).data.drop 4) = s
    have hd : ("b64:" ++ s).data = "b64:".data ++ s.data := by simp
    rw [hd]
    have h4 : ("b64:".data).length = 4 := rfl
    rw [← h4, List.drop_left]
  rw [hdrop]

/-- `pageDataDecode` sits in the code path behind `startsWith` checks;
the decode branch of `rebuildPage` needs this shape. -/
theorem serDeser_page (fs : String → Option String) (g : String → String)
    (p : PageProvider) (hp : goodPage p = true) :
    ∃ jp p', serializePage fs g p = .ok (jp, p')
      ∧ ∀ i, rebuildPage i jp = .ok (rebuilt p) := by
  cases p with
  | page i0 o =>
    refine ⟨_, _, serializePage_page fs g i0 o, ?_⟩
    intro i
    have hne : ¬(i0 = "" ∨ i0 = "-") := by
      unfold goodPage at hp
      rintro (hc | hc) <;> subst hc <;> simp at hp
    simp [rebuildPage, hne, rebuilt]
  | pageReader inp o =>
    cases inp with
    | none => simp [goodPage] at hp
    | some br =>
      refine ⟨_, _, serializePage_reader_some fs g br o, ?_⟩
      intro i
      have hne : br.remaining ≠ "" := by
        unfold goodPage at hp
        simpa using hp
      simp [rebuildPage, pageDataEncode_ne_empty br.remaining hne,
        pageData_round br.remaining hne, rebuilt]
  | markdownPage ip sk o cache rerr => simp [goodPage] at hp

theorem rebuilt_inputFile (p : PageProvider) :
    (rebuilt p).inputFile = p.inputFile := by
  cases p with
  | page i o => rfl
  | pageReader inp o => rfl
  | markdownPage ip sk o cache rerr => rfl

theorem rebuilt_args (p : PageProvider) : (rebuilt p).args = p.args := by
  cases p with
  | page i o => rfl
  | pageReader inp o => rfl
  | markdownPage ip sk o cache rerr => rfl

theorem deserializePages_all_good (fs : String → Option String)
    (g : String → String) :
    ∀ (pages : List PageProvider) (jps : List JsonPage)
      (pages' : List PageProvider) (acc : PDFGenerator) (i : Nat),
      acc.userStyleSheetPath = "" → acc.headerHTMLPath = "" →
      acc.footerHTMLPath = "" → acc.replace.value = none →
      (∀ p ∈ pages, goodPage p = true) →
      serializePages fs g pages = .ok (jps, pages') →
      deserializePages i acc jps
        = .ok { acc with pages := acc.pages ++ pages.map rebuilt } := by
  intro pages
  induction pages with
  | nil =>
    intro jps pages' acc i h1 h2 h3 h4 hg hser
    injection hser with hser
    injection hser with ha hb
    rw [← ha]
    show Except.ok acc = _
    simp
  | cons p rest ih =>
    intro jps pages' acc i h1 h2 h3 h4 hg hser
    obtain ⟨jp0, p0, hsp, hrb⟩ := serDeser_page fs g p (hg p (by simp))
    unfold serializePages at hser
    rw [hsp] at hser
    cases hr : serializePages fs g rest with
    | error e => rw [hr] at hser; cases hser
    | ok w =>
      rcases w with ⟨jps', rest'⟩
      rw [hr] at hser
      injection hser with hser
      injection hser with ha hb
      rw [← ha]
      show deserializePages i acc (jp0 :: jps') = _
      unfold deserializePages
      rw [hrb i]
      show deserializePages (i + 1) (acc.AddPage (rebuilt p)) jps' = _
      rw [addPage_plain acc (rebuilt p) h1 h2 h3 h4]
      rw [ih jps' rest' { acc with pages := acc.pages ++ [rebuilt p] } (i + 1)
        h1 h2 h3 h4 (fun q hq => hg q (by simp [hq])) hr]
      simp

/-- `serializePages` succeeds on a list of good pages. -/
theorem serializePages_ok_of_good (fs : String → Option String)
    (g : String → String) :
    ∀ pages : List PageProvider, (∀ p ∈ pages, goodPage p = true) →
      ∃ jps pages', serializePages fs g pages = .ok (jps, pages') := by
  intro pages
  induction pages with
  | nil => intro _; exact ⟨[], [], rfl⟩
  | cons p rest ih =>
    intro hg
    obtain ⟨jp0, p0, hsp, -⟩ := serDeser_page fs g p (hg p (by simp))
    obtain ⟨jps', rest', hr⟩ := ih (fun q hq => hg q (by simp [hq]))
    refine ⟨jp0 :: jps', p0 :: rest', ?_⟩
    unfold serializePages
    rw [hsp, hr]

theorem flatMap_rebuilt (pages : List PageProvider) :
    (pages.map rebuilt).flatMap (fun p => "page" :: p.inputFile :: p.args)
      = pages.flatMap (fun p => "page" :: p.inputFile :: p.args) := by
  induction pages with
  | nil => rfl
  | cons p rest ih =>
    simp only [List.map_cons, List.flatMap_cons, ih, rebuilt_inputFile,
      rebuilt_args]

/-- C4 (amended): for every document whose output file is unset and
whose pages are all located pages with a locator that is neither empty
nor the stdin sentinel, or stream pages with a non-nil, non-exhausted
reader, reconstructing via `NewPDFGeneratorFromJSON(ToJSON(d))`
succeeds and yields a document whose `Args()` equals `d.Args()` element
for element. -/
theorem c4_roundtrip (fs : String → Option String) (g : String → String)
    (d : PDFGenerator) (hout : d.OutputFile = "")
    (hp : ∀ p ∈ d.pages, goodPage p = true) :
    ∃ j d' d₂, d.ToJSON fs g = .ok (j, d')
      ∧ NewPDFGeneratorFromJSON j = .ok d₂ ∧ d₂.Args = d.Args := by
  obtain ⟨jps, pages', hsp⟩ := serializePages_ok_of_good fs g d.pages hp
  have htj : d.ToJSON fs g = .ok
      ({ globalOpts := d.globalOptions, outlineOpts := d.outlineOptions,
         cover := d.Cover, toc := d.TOC, jpages := jps },
       { d with pages := pages' }) := by
    unfold PDFGenerator.ToJSON
    rw [hsp]
  have hdes : NewPDFGeneratorFromJSON
      { globalOpts := d.globalOptions, outlineOpts := d.outlineOptions,
        cover := d.Cover, toc := d.TOC, jpages := jps }
      = .ok { NewPDFPreparer with
          TOC := d.TOC, Cover := d.Cover, globalOptions := d.globalOptions,
          outlineOptions := d.outlineOptions,
          pages := [] ++ d.pages.map rebuilt } := by
    unfold NewPDFGeneratorFromJSON
    exact deserializePages_all_good fs g d.pages jps pages' _ 0
      rfl rfl rfl rfl hp hsp
  refine ⟨_, _, _, htj, hdes, ?_⟩
  rw [args_eq_flat, args_eq_flat, hout]
  simp [NewPDFPreparer, flatMap_rebuilt]

/-- Witness for the amended C4 at a concrete input: one located page
and one stream page with non-empty content round-trip to an equal
argument vector. -/
theorem c4_witness :
    ∃ j d' d₂, c4okDoc.ToJSON fs0 g0 = .ok (j, d')
      ∧ NewPDFGeneratorFromJSON j = .ok d₂ ∧ d₂.Args = c4okDoc.Args :=
  c4_roundtrip fs0 g0 c4okDoc rfl (by decide)

/-- Counterexample for C4 as stated: the claim has no condition on the
output target, but `jsonPDFGenerator` does not serialize `OutputFile`;
a document with an output file set and a single located page
round-trips to a document whose `Args()` ends in the stdin/stdout
sentinel instead of the output path. -/
theorem c4_counterexample :
    c4rt = ["page", "https://example.com", "-"]
    ∧ c4doc.Args = ["page", "https://example.com", "out.pdf"]
    ∧ c4rt ≠ c4doc.Args := by
  exact ⟨rfl, rfl, by decide⟩

end GoPdf
